import Mathlib

/-!
Verification of the MTProto instance core (`mtp_instance.cpp`): a shallow
embedding of the request-id allocator, the request table, the delayed
scheduler, the error policy engine, the config controller, the key
destroyer lifecycle and the key registry, with theorems checking the
natural-language specification against the code.

Maps (`std::map`, `base::flat_map`) are embedded as association lists with
unique keys; integers are embedded as `Nat`/`Int` (all the arithmetic here
stays far from machine-width overflow except where modelled explicitly).
Outbound calls to sessions and persistence are recorded as an event trace.
-/

namespace Mtp

/-- Association-list lookup, the embedding of `std::map::find`. -/
def lookupA {κ α : Type} [DecidableEq κ] : List (κ × α) → κ → Option α
  | [], _ => none
  | x :: rest, k => if x.1 = k then some x.2 else lookupA rest k

/-- Association-list update-or-insert, the embedding of `map[k] = v`
(assignment through an iterator when present, `emplace` at the end when
absent). -/
def setA {κ α : Type} [DecidableEq κ] : List (κ × α) → κ → α → List (κ × α)
  | [], k, v => [(k, v)]
  | x :: rest, k, v => if x.1 = k then (k, v) :: rest else x :: setA rest k v

/-- Association-list erase, the embedding of `map::erase(k)` (unique keys,
so only the first matching entry is removed). -/
def eraseA {κ α : Type} [DecidableEq κ] : List (κ × α) → κ → List (κ × α)
  | [], _ => []
  | x :: rest, k => if x.1 = k then rest else x :: eraseA rest k

/-- Outbound effects of the instance core, recorded as a trace. -/
inductive Event where
  | sendPrepared (sessionDc : Int) (requestId : Nat)
  | sessionCancel (sessionDc : Int) (requestId : Nat) (msgId : Nat)
  | handlerInvoked (requestId : Nat)
  | globalFail (requestId : Nat)
  | exportStarted (targetDc : Int) (exportRequestId : Nat)
  | tempKeyChanged (dcId : Int)
  | writeMtpData
  | setMainDc (dcId : Int)
  deriving DecidableEq, Repr

/-! ## Shifted DC ids

`ShiftedDcId` packs a bare DC id with a role shift.  The encoding helpers
(`BareDcId`, `GetDcIdShift`, `ShiftDcId`) live in the facade headers, not in
this repository slice.  Modelled from the spec: a signed integer encoding
`(bareDcId, shift)` in a fixed layout with `bareDcId(s)`, `shift(s)` and
`compose(bare, shift)` operations; we fix the layout multiplier `kDcShift`
and take bare DC ids to be in `[0, kDcShift)`. -/

def kDcShift : Int := 10000

/-- Modelled from the spec: `bareDcId(s)` of the fixed-layout encoding. -/
def BareDcId (shiftedDcId : Int) : Int := shiftedDcId % kDcShift

/-- Modelled from the spec: `shift(s)` of the fixed-layout encoding. -/
def GetDcIdShift (shiftedDcId : Int) : Int := shiftedDcId / kDcShift

/-- Modelled from the spec: `compose(bare, shift)`. -/
def ShiftDcId (dcId shift : Int) : Int := dcId + kDcShift * shift

/-! ## Request id allocator (`internal::GetNextRequestId`) -/

/-- `std::numeric_limits<int>::max() / 2`. -/
def kHalfIntMax : Nat := 1073741823

/-- `internal::GetNextRequestId`: increment the shared counter, reset it to
zero when the incremented value reaches half the maximum signed integer.
Returns `(issued id, new counter)`. -/
def GetNextRequestId (counter : Nat) : Nat × Nat :=
  let result := counter + 1
  (result, if result = kHalfIntMax then 0 else result)

/-- The ids issued by `n` consecutive allocations starting from `counter`. -/
def allocIds : Nat → Nat → List Nat
  | 0, _ => []
  | n + 1, counter =>
    let r := GetNextRequestId counter
    r.1 :: allocIds n r.2

/-! ## Transient/server-error backoff (`onErrorDefault`, transient branch) -/

/-- One backoff update of the `_requestsDelays` entry for a request, from
`onErrorDefault`: absent entries are created at 1 second; present entries
are doubled unless already above 60.  Returns `(secs, new entry)`. -/
def transientSecs : Option Nat → Nat × Option Nat
  | none => (1, some 1)
  | some v => if v > 60 then (v, some v) else (2 * v, some (2 * v))

/-- The `(delay, entry)` pair after `n` consecutive transient/server errors
for one request, starting from no retry-delay entry. -/
def transientDelaySeq : Nat → Nat × Option Nat
  | 0 => (0, none)
  | n + 1 => transientSecs (transientDelaySeq n).2

/-! ## Delayed scheduler -/

/-- The insertion loop over `_delayedRequests` in `onErrorDefault`: scan
from the front; a scanned entry carrying the same request id keeps the
queue unchanged (the earlier entry wins); otherwise the new entry is
inserted before the first entry whose due time is strictly greater. -/
def enqueueDelayed : List (Nat × Nat) → Nat → Nat → List (Nat × Nat)
  | [], requestId, sendAt => [(requestId, sendAt)]
  | x :: rest, requestId, sendAt =>
    if x.1 = requestId then x :: rest
    else if sendAt < x.2 then (requestId, sendAt) :: x :: rest
    else x :: enqueueDelayed rest requestId sendAt

/-- The Delayed Scheduler insertion as the spec words it, for comparison
with `enqueueDelayed`: insert at the first position whose due time is
greater than or equal to the new due time. -/
def enqueueDelayedSpec : List (Nat × Nat) → Nat → Nat → List (Nat × Nat)
  | [], requestId, sendAt => [(requestId, sendAt)]
  | x :: rest, requestId, sendAt =>
    if x.1 = requestId then x :: rest
    else if sendAt ≤ x.2 then (requestId, sendAt) :: x :: rest
    else x :: enqueueDelayedSpec rest requestId sendAt

/-- The transient/server branch of `onErrorDefault` acting on the
retry-delay entry and the delayed queue: compute `secs` by `transientSecs`,
then enqueue at `now + secs * 1000 + 10`.  Returns
`(new entry, new queue, secs)`. -/
def serverErrorStep (requestId now : Nat) (entry : Option Nat)
    (queue : List (Nat × Nat)) : Option Nat × List (Nat × Nat) × Nat :=
  let r := transientSecs entry
  (r.2, enqueueDelayed queue requestId (now + r.1 * 1000 + 10), r.1)

/-- The `FLOOD_WAIT_S` branch of `onErrorDefault`: the delay is `S` seconds
and the request is enqueued at `now + S * 1000 + 10`. -/
def floodErrorStep (requestId floodSeconds now : Nat)
    (queue : List (Nat × Nat)) : List (Nat × Nat) :=
  enqueueDelayed queue requestId (now + floodSeconds * 1000 + 10)

/-- The drain loop of `checkDelayedRequests`: pop entries from the front
while the front entry is due.  Returns `(drained entries, remaining
queue)`. -/
def checkDelayedRequests : List (Nat × Nat) → Nat → List (Nat × Nat) × List (Nat × Nat)
  | [], _ => ([], [])
  | x :: rest, now =>
    if x.2 ≤ now then
      let r := checkDelayedRequests rest now
      (x :: r.1, r.2)
    else ([], x :: rest)

/-! ## Request routing (`changeRequestByDc`) -/

/-- `Instance::Private::changeRequestByDc`: rewrite the routing of a
request to a new bare DC, preserving the main-DC sign convention and the
shift.  Returns `(reported routing, new map)`. -/
def changeRequestByDc (requestsByDc : List (Nat × Int)) (requestId : Nat)
    (newdc : Int) : Option Int × List (Nat × Int) :=
  match lookupA requestsByDc requestId with
  | none => (none, requestsByDc)
  | some v =>
    let v2 := if v < 0 then -newdc else ShiftDcId newdc (GetDcIdShift v)
    (some v2, setA requestsByDc requestId v2)

/-! ## Migrate branch of `onErrorDefault` (C2) -/

/-- The instance state touched by the migrate branch of
`onErrorDefault`. -/
structure MigrateState where
  requestsByDc : List (Nat × Int)
  requestMap : List (Nat × List Nat)
  mainDcId : Int
  mainDcIdForced : Bool
  authExportRequests : List (Nat × Int)
  authWaiters : List (Int × List Nat)
  deriving DecidableEq, Repr

/-- The `^(FILE|PHONE|NETWORK|USER)_MIGRATE_(N)$` branch of
`onErrorDefault`, with `newdc = N` already extracted from the error type.
The inert (`if (false && ...)`) auth-export branch for main-DC migration is
omitted as dead code; `setMainDcId` is inlined to its effect on the state
modelled here.  Returns `(handled, new state, events)`. -/
def onErrorMigrate (s : MigrateState) (requestId : Nat) (newdc : Int) :
    Bool × MigrateState × List Event :=
  if requestId = 0 then (false, s, [])
  else
    let dcWithShift := (lookupA s.requestsByDc requestId).getD 0
    if dcWithShift = 0 ∨ newdc = 0 then (false, s, [])
    else
      let branch :=
        if dcWithShift < 0 then
          ({ s with mainDcId := newdc, mainDcIdForced := true }, newdc,
            [Event.setMainDc newdc])
        else
          (s, ShiftDcId newdc (GetDcIdShift dcWithShift), ([] : List Event))
      let s1 := branch.1
      let target := branch.2.1
      match lookupA s1.requestMap requestId with
      | none => (false, s1, branch.2.2)
      | some _ =>
        let signedDcId := if dcWithShift < 0 then -target else target
        (true,
          { s1 with requestsByDc := setA s1.requestsByDc requestId signedDcId },
          branch.2.2 ++ [Event.sendPrepared target requestId])

/-! ## Unauthorized branch of `onErrorDefault` (C3) -/

/-- The instance state touched by the unauthorized / bad-guest-DC branch of
`onErrorDefault`. -/
structure AuthErrorState where
  requestsByDc : List (Nat × Int)
  mainDcId : Int
  hasAuthorization : Bool
  authWaiters : List (Int × List Nat)
  authExportRequests : List (Nat × Int)
  badGuestDcRequests : List Nat
  hasGlobalFailHandler : Bool
  deriving DecidableEq, Repr

/-- The `code == 401` (excluding `AUTH_KEY_PERM_EMPTY`) / guest-DC
`FILE_ID_INVALID` branch of `onErrorDefault`.  `exportRequestId` is the id
the allocator hands to the `auth.exportAuthorization` send when one is
started.  Returns `none` when the branch guard does not match, otherwise
`(handled, new state, events)`. -/
def onErrorUnauthorized (s : AuthErrorState) (requestId : Nat) (code : Int)
    (errType : String) (exportRequestId : Nat) :
    Option (Bool × AuthErrorState × List Event) :=
  let badGuestDc := code = 400 ∧ errType = "FILE_ID_INVALID"
  if (code = 401 ∧ errType ≠ "AUTH_KEY_PERM_EMPTY")
      ∨ (badGuestDc ∧ requestId ∉ s.badGuestDcRequests) then
    some (
      let dcWithShift := (lookupA s.requestsByDc requestId).getD 0
      let absDcWithShift := |dcWithShift|
      let newdc := BareDcId absDcWithShift
      if newdc = 0 ∨ newdc = s.mainDcId ∨ ¬ s.hasAuthorization then
        (false, s,
          if ¬ badGuestDc ∧ s.hasGlobalFailHandler
            then [Event.globalFail requestId] else [])
      else
        let waiters := (lookupA s.authWaiters newdc).getD []
        let exportTable := setA s.authExportRequests exportRequestId absDcWithShift
        let started :=
          if waiters.isEmpty then
            ({ s with authExportRequests := exportTable },
              [Event.exportStarted newdc exportRequestId])
          else (s, [])
        let s1 := started.1
        let newWaiters := setA s1.authWaiters newdc (waiters ++ [requestId])
        let s2 := { s1 with authWaiters := newWaiters }
        let s3 :=
          if badGuestDc then
            { s2 with badGuestDcRequests := s2.badGuestDcRequests ++ [requestId] }
          else s2
        (true, s3, started.2))
  else none

/-! ## `sendRequest` / `cancel` (C5) -/

/-- The request-table state touched by `sendRequest` and `cancel`:
routing, payloads, handlers (as their `(onDone?, onFail?)` presence) and
retry delays, plus the main session's shifted DC id. -/
structure InstState where
  mainDcWithShift : Int
  requestsByDc : List (Nat × Int)
  requestMap : List (Nat × List Nat)
  parserMap : List (Nat × (Bool × Bool))
  requestsDelays : List (Nat × Nat)
  deriving DecidableEq, Repr

/-- `getSession` normalization of a shifted DC id: `0` means the main
session; a pure shift (bare id `0`) is applied to the main session's bare
DC; anything else is itself. -/
def resolveSessionDc (mainDcWithShift shiftedDcId : Int) : Int :=
  if shiftedDcId = 0 then mainDcWithShift
  else if BareDcId shiftedDcId = 0 then shiftedDcId + BareDcId mainDcWithShift
  else shiftedDcId

/-- The 64-bit message id read from bytes 4..12 of a serialized payload
(little endian), as `cancel` does through
`*(mtpMsgId*)(constData() + 4)`. -/
def msgIdFromPayload (payload : List Nat) : Nat :=
  List.foldr (fun i acc => acc * 256 + payload.getD (4 + i) 0) 0 (List.range 8)

/-- `Instance::Private::sendRequest`: store the payload and handlers
(handlers only when at least one callback is present), register routing
with the main-DC sign convention, and hand the payload to the session.
The payload-header stamps (`lastSentTime`, `needsLayer`, `after`) are not
part of the state modelled here.  Returns `(new state, events)`. -/
def sendRequest (s : InstState) (requestId : Nat) (payload : List Nat)
    (callbacks : Bool × Bool) (shiftedDcId : Int) : InstState × List Event :=
  let sessionDc := resolveSessionDc s.mainDcWithShift shiftedDcId
  let parserMap :=
    if callbacks.1 || callbacks.2 then setA s.parserMap requestId callbacks
    else s.parserMap
  let requestMap := setA s.requestMap requestId payload
  let signedDcId := if shiftedDcId = 0 then -sessionDc else sessionDc
  let requestsByDc := setA s.requestsByDc requestId signedDcId
  ({ s with
      parserMap := parserMap
      requestMap := requestMap
      requestsByDc := requestsByDc },
    [Event.sendPrepared sessionDc requestId])

/-- `Instance::Private::cancel`: read the message id from the stored
payload, erase the payload, unregister the request (retry delay, payload,
routing), ask the routed session to cancel `(requestId, msgId)`, and drop
the handlers silently (`clearCallbacks` with error code `0`). -/
def cancel (s : InstState) (requestId : Nat) : InstState × List Event :=
  if requestId = 0 then (s, [])
  else
    let shiftedDcId := lookupA s.requestsByDc requestId
    let msgId :=
      match lookupA s.requestMap requestId with
      | some p => msgIdFromPayload p
      | none => 0
    let s1 := { s with requestMap := eraseA s.requestMap requestId }
    let s2 := { s1 with
      requestsDelays := eraseA s1.requestsDelays requestId
      requestMap := eraseA s1.requestMap requestId
      requestsByDc := eraseA s1.requestsByDc requestId }
    let ev :=
      match shiftedDcId with
      | some dc =>
        [Event.sessionCancel (resolveSessionDc s.mainDcWithShift (|dc|)) requestId msgId]
      | none => []
    ({ s2 with parserMap := eraseA s2.parserMap requestId }, ev)

/-- `Instance::Private::hasCallbacks`. -/
def hasCallbacks (s : InstState) (requestId : Nat) : Bool :=
  (lookupA s.parserMap requestId).isSome

/-! ## Config controller (C8) -/

/-- Modelled from the spec: the sentinel main-DC ids of `Config`
(`kNoneMainDc` meaning no main DC exists); the exact values live in the
instance header, outside this repository slice. -/
def kNoneMainDc : Int := -1

/-- The config-controller state: how many config loaders are live (the
`_configLoader` unique pointer), the pending CDN-config request id, the
instance mode and the main DC id. -/
structure ConfigState where
  configLoaderLive : Nat
  cdnConfigLoadRequestId : Nat
  isKeysDestroyer : Bool
  mainDcId : Int
  deriving DecidableEq, Repr

/-- `Instance::Private::requestConfig`: a no-op when a loader is already
live or in key-destroyer mode; otherwise creates the loader. -/
def requestConfig (s : ConfigState) : ConfigState :=
  if s.configLoaderLive ≠ 0 ∨ s.isKeysDestroyer then s
  else { s with configLoaderLive := s.configLoaderLive + 1 }

/-- `configLoadDone` resets the `_configLoader` pointer. -/
def configLoadDone (s : ConfigState) : ConfigState :=
  { s with configLoaderLive := 0 }

/-- `Instance::Private::requestCDNConfig`: a no-op when a CDN-config
request is already pending or no main DC exists; otherwise sends the
request (its id `newRequestId` comes from the allocator, hence nonzero). -/
def requestCDNConfig (s : ConfigState) (newRequestId : Nat) : ConfigState :=
  if s.cdnConfigLoadRequestId ≠ 0 ∨ s.mainDcId = kNoneMainDc then s
  else { s with cdnConfigLoadRequestId := newRequestId }

/-- The CDN-config done handler zeroes `_cdnConfigLoadRequestId`. -/
def cdnConfigDone (s : ConfigState) : ConfigState :=
  { s with cdnConfigLoadRequestId := 0 }

/-- The config-controller operations whose interleavings the liveness
invariant quantifies over. -/
inductive ConfigOp where
  | requestConfig
  | configLoadDone
  | requestCDNConfig (newRequestId : Nat)
  | cdnConfigDone
  deriving DecidableEq, Repr

/-- Apply one config-controller operation. -/
def applyConfigOp (s : ConfigState) : ConfigOp → ConfigState
  | ConfigOp.requestConfig => requestConfig s
  | ConfigOp.configLoadDone => configLoadDone s
  | ConfigOp.requestCDNConfig newRequestId => requestCDNConfig s newRequestId
  | ConfigOp.cdnConfigDone => cdnConfigDone s

/-! ## Key destroyer mode (C9) -/

/-- Modelled from the spec: the first synthetic shift used for
destroying-key DCs; `destroyKeyNextDcId` lives in the facade headers,
outside this repository slice. -/
def kDestroyKeyStartDcShift : Int := 256

/-- Modelled from the spec: synthesize the next destroying-key shifted DC
id for the same bare DC (a further shift on each call). -/
def destroyKeyNextDcId (shiftedDcId : Int) : Int :=
  ShiftDcId (BareDcId shiftedDcId)
    (if GetDcIdShift shiftedDcId = 0 then kDestroyKeyStartDcShift
      else GetDcIdShift shiftedDcId + 1)

/-- The largest shift among a list of shifted DC ids: the termination
measure of the collision loop in `start` (the synthesized shift strictly
grows on each collision, so it eventually exceeds every used shift). -/
def maxShiftOf (l : List Int) : Int :=
  l.foldr (fun k acc => max (GetDcIdShift k) acc) 0

/-- The collision loop of `start` in key-destroyer mode, with an explicit
iteration bound: step the shifted DC id until it is not yet used as a
`_keysForWrite` key. -/
def freshDestroyIdIter (usedIds : List Int) : Nat → Int → Int
  | 0, s => s
  | n + 1, s =>
    if s ∈ usedIds then freshDestroyIdIter usedIds n (destroyKeyNextDcId s)
    else s

/-- The collision loop of `start` in key-destroyer mode.  The C++ `while`
loop terminates because each `destroyKeyNextDcId` step strictly increases
the shift; here the loop runs with the fuel `maxShiftOf usedIds + 1 -
shift`, proved sufficient below (`freshDestroyId_not_mem`), so the fuel
never runs out before the loop condition fails. -/
def freshDestroyId (usedIds : List Int) (s : Int) : Int :=
  freshDestroyIdIter usedIds (maxShiftOf usedIds + 1 - GetDcIdShift s).toNat s

/-- The key-destroyer state: keys staged for destruction, the DC registry,
the session registry, and how many times `_allKeysDestroyed` has fired. -/
structure DestroyerState where
  keysForWrite : List (Int × Nat)
  dcenters : List Int
  sessions : List Int
  allKeysDestroyedFired : Nat
  deriving DecidableEq, Repr

/-- One iteration of the key-placement loop of `start` in key-destroyer
mode: synthesize a fresh shifted DC id for the key's bare DC, store the
key under it and create the DC block. -/
def startDestroyerAddKey (s : DestroyerState) (dcId : Int) (key : Nat) :
    DestroyerState :=
  let shiftedDcId :=
    freshDestroyId (s.keysForWrite.map Prod.fst) (destroyKeyNextDcId dcId)
  { s with
    keysForWrite := setA s.keysForWrite shiftedDcId key,
    dcenters :=
      if shiftedDcId ∈ s.dcenters then s.dcenters
      else s.dcenters ++ [shiftedDcId] }

/-- `Instance::Private::start` in key-destroyer mode: place every input
key under a synthetic shifted DC, then start a session per DC block. -/
def startDestroyer (keys : List (Int × Nat)) : DestroyerState :=
  let s1 := keys.foldl (fun s kv => startDestroyerAddKey s kv.1 kv.2)
    ⟨[], [], [], 0⟩
  { s1 with sessions := s1.dcenters }

/-- `Instance::Private::completedKeyDestroy`: remove the DC block, remove
the key from the registry, kill the session (no main session exists in
destroyer mode), and fire `_allKeysDestroyed` when the DC registry became
empty. -/
def completedKeyDestroy (s : DestroyerState) (shiftedDcId : Int) :
    DestroyerState :=
  let dcenters := s.dcenters.erase shiftedDcId
  { keysForWrite := eraseA s.keysForWrite shiftedDcId
    dcenters := dcenters
    sessions := s.sessions.erase shiftedDcId
    allKeysDestroyedFired :=
      if dcenters.isEmpty then s.allKeysDestroyedFired + 1
      else s.allKeysDestroyedFired }

/-! ## Key registry (C10) -/

/-- `Instance::Private::dcPersistentKeyChanged`: fire the temporary-key
stream for the DC, then update `_keysForWrite` and persist only when the
entry truly changed and the DC id is not temporary.  `isTemporaryDcId`
lives outside this repository slice and is taken as a parameter.  Keys are
embedded by identity (`AuthKeyPtr` equality is pointer equality; `none` is
the null key).  Returns `(new registry, events)`. -/
def dcPersistentKeyChanged (isTemporaryDcId : Int → Bool)
    (keysForWrite : List (Int × Nat)) (dcId : Int)
    (persistentKey : Option Nat) : List (Int × Nat) × List Event :=
  let tempEv := [Event.tempKeyChanged dcId]
  if isTemporaryDcId dcId then (keysForWrite, tempEv)
  else
    match lookupA keysForWrite dcId, persistentKey with
    | some k, pk =>
      if some k = pk then (keysForWrite, tempEv)
      else
        match pk with
        | none => (eraseA keysForWrite dcId, tempEv ++ [Event.writeMtpData])
        | some newKey =>
          (setA keysForWrite dcId newKey, tempEv ++ [Event.writeMtpData])
    | none, none => (keysForWrite, tempEv)
    | none, some newKey =>
      (setA keysForWrite dcId newKey, tempEv ++ [Event.writeMtpData])

/-! ## Helper lemmas for association-list maps -/

/-- Keys of the association-list maps are unique (the `std::map` /
`base::flat_map` invariant). -/
def keysNodup {κ α : Type} (m : List (κ × α)) : Prop :=
  (m.map Prod.fst).Nodup

theorem lookupA_setA_self {κ α : Type} [DecidableEq κ]
    (m : List (κ × α)) (k : κ) (v : α) :
    lookupA (setA m k v) k = some v := by
  induction m with
  | nil => simp [setA, lookupA]
  | cons x rest ih =>
    by_cases h : x.1 = k
    · simp [setA, h, lookupA]
    · simp [setA, h, lookupA, ih]

theorem lookupA_setA_ne {κ α : Type} [DecidableEq κ]
    (m : List (κ × α)) (k k2 : κ) (v : α) (h : k2 ≠ k) :
    lookupA (setA m k v) k2 = lookupA m k2 := by
  have hk : ¬ k = k2 := h.symm
  induction m with
  | nil => simp [setA, lookupA, hk]
  | cons x rest ih =>
    by_cases hx : x.1 = k
    · have hx2 : ¬ x.1 = k2 := by rw [hx]; exact hk
      simp only [setA, hx, if_true, lookupA, hk, if_false, hx2]
    · simp only [setA, hx, if_false, lookupA]
      by_cases hk2 : x.1 = k2
      · simp [hk2]
      · simp [hk2, ih]

theorem lookupA_eq_none {κ α : Type} [DecidableEq κ]
    (m : List (κ × α)) (k : κ) (h : k ∉ m.map Prod.fst) :
    lookupA m k = none := by
  induction m with
  | nil => simp [lookupA]
  | cons x rest ih =>
    simp only [List.map_cons, List.mem_cons] at h
    push_neg at h
    have h1 : ¬ x.1 = k := h.1.symm
    simp [lookupA, h1, ih h.2]

theorem mem_keys_of_lookupA {κ α : Type} [DecidableEq κ]
    (m : List (κ × α)) (k : κ) (v : α) (h : lookupA m k = some v) :
    k ∈ m.map Prod.fst := by
  induction m with
  | nil => simp [lookupA] at h
  | cons x rest ih =>
    by_cases hx : x.1 = k
    · rw [List.map_cons, hx]
      exact List.mem_cons_self k _
    · simp only [lookupA, hx, if_false] at h
      rw [List.map_cons]
      exact List.mem_cons_of_mem _ (ih h)

theorem eraseA_of_lookup_none {κ α : Type} [DecidableEq κ]
    (m : List (κ × α)) (k : κ) (h : lookupA m k = none) :
    eraseA m k = m := by
  induction m with
  | nil => simp [eraseA]
  | cons x rest ih =>
    by_cases hx : x.1 = k
    · simp [lookupA, hx] at h
    · simp only [lookupA, hx, if_false] at h
      simp [eraseA, hx, ih h]

theorem lookupA_eraseA_self {κ α : Type} [DecidableEq κ]
    (m : List (κ × α)) (k : κ) (h : keysNodup m) :
    lookupA (eraseA m k) k = none := by
  induction m with
  | nil => simp [eraseA, lookupA]
  | cons x rest ih =>
    simp only [keysNodup, List.map_cons, List.nodup_cons] at h
    by_cases hx : x.1 = k
    · simp only [eraseA, hx, if_true]
      exact lookupA_eq_none rest k (hx ▸ h.1)
    · simp [eraseA, hx, lookupA, ih h.2]

theorem mem_keys_setA {κ α : Type} [DecidableEq κ]
    (m : List (κ × α)) (k k2 : κ) (v : α)
    (h : k2 ∈ (setA m k v).map Prod.fst) :
    k2 ∈ m.map Prod.fst ∨ k2 = k := by
  induction m with
  | nil =>
    simp only [setA, List.map_cons, List.map_nil, List.mem_singleton] at h
    exact Or.inr h
  | cons x rest ih =>
    by_cases hx : x.1 = k
    · simp only [setA, hx, if_true, List.map_cons, List.mem_cons] at h
      rcases h with h | h
      · exact Or.inr h
      · exact Or.inl (by simp [h])
    · simp only [setA, hx, if_false, List.map_cons, List.mem_cons] at h
      rcases h with h | h
      · exact Or.inl (by simp [h])
      · rcases ih h with h2 | h2
        · exact Or.inl (by simp [h2])
        · exact Or.inr h2

theorem keysNodup_setA {κ α : Type} [DecidableEq κ]
    (m : List (κ × α)) (k : κ) (v : α) (h : keysNodup m) :
    keysNodup (setA m k v) := by
  induction m with
  | nil => simp [setA, keysNodup]
  | cons x rest ih =>
    simp only [keysNodup, List.map_cons, List.nodup_cons] at h
    by_cases hx : x.1 = k
    · simp only [keysNodup, setA, hx, if_true, List.map_cons, List.nodup_cons]
      exact ⟨hx ▸ h.1, h.2⟩
    · simp only [keysNodup, setA, hx, if_false, List.map_cons, List.nodup_cons]
      refine ⟨fun hmem => ?_, ih h.2⟩
      rcases mem_keys_setA rest k x.1 v hmem with h1 | h1
      · exact h.1 h1
      · exact hx h1

theorem mem_keys_eraseA {κ α : Type} [DecidableEq κ]
    (m : List (κ × α)) (k k2 : κ)
    (h : k2 ∈ (eraseA m k).map Prod.fst) :
    k2 ∈ m.map Prod.fst := by
  induction m with
  | nil => simp [eraseA] at h
  | cons x rest ih =>
    by_cases hx : x.1 = k
    · simp only [eraseA, hx, if_true] at h
      simp [h]
    · simp only [eraseA, hx, if_false, List.map_cons, List.mem_cons] at h
      rcases h with h | h
      · simp [h]
      · simp [ih h]

theorem keysNodup_eraseA {κ α : Type} [DecidableEq κ]
    (m : List (κ × α)) (k : κ) (h : keysNodup m) :
    keysNodup (eraseA m k) := by
  induction m with
  | nil => simp [eraseA, keysNodup]
  | cons x rest ih =>
    simp only [keysNodup, List.map_cons, List.nodup_cons] at h
    by_cases hx : x.1 = k
    · simpa [keysNodup, eraseA, hx] using h.2
    · simp only [keysNodup, eraseA, hx, if_false, List.map_cons, List.nodup_cons]
      exact ⟨fun hmem => h.1 (mem_keys_eraseA rest k x.1 hmem), ih h.2⟩

theorem setA_of_lookup_none {κ α : Type} [DecidableEq κ]
    (m : List (κ × α)) (k : κ) (v : α) (h : lookupA m k = none) :
    setA m k v = m ++ [(k, v)] := by
  induction m with
  | nil => simp [setA]
  | cons x rest ih =>
    by_cases hx : x.1 = k
    · simp [lookupA, hx] at h
    · simp only [lookupA, hx, if_false] at h
      simp [setA, hx, ih h]

theorem setA_of_lookup_self {κ α : Type} [DecidableEq κ]
    (m : List (κ × α)) (k : κ) (v : α) (h : lookupA m k = some v) :
    setA m k v = m := by
  induction m with
  | nil => simp [lookupA] at h
  | cons x rest ih =>
    by_cases hx : x.1 = k
    · simp only [lookupA, hx, if_true, Option.some.injEq] at h
      simp only [setA, hx, if_true]
      rw [← hx, ← h]
    · simp only [lookupA, hx, if_false] at h
      simp [setA, hx, ih h]

theorem map_fst_eraseA {α : Type} (m : List (Int × α)) (k : Int) :
    (eraseA m k).map Prod.fst = (m.map Prod.fst).erase k := by
  induction m with
  | nil => simp [eraseA]
  | cons x rest ih =>
    by_cases hx : x.1 = k
    · simp [eraseA, hx, List.erase_cons_head]
    · rw [List.map_cons, List.erase_cons_tail (by simpa using hx)]
      simp [eraseA, hx, ih]

/-! ## Shifted-DC encoding round trips -/

theorem bareDcId_shiftDcId (b t : Int) (h0 : 0 ≤ b) (h1 : b < kDcShift) :
    BareDcId (ShiftDcId b t) = b := by
  unfold BareDcId ShiftDcId
  rw [Int.add_mul_emod_self_left]
  exact Int.emod_eq_of_lt h0 h1

theorem getDcIdShift_shiftDcId (b t : Int) (h0 : 0 ≤ b) (h1 : b < kDcShift) :
    GetDcIdShift (ShiftDcId b t) = t := by
  unfold GetDcIdShift ShiftDcId
  rw [Int.add_mul_ediv_left _ _ (by norm_num [kDcShift] : kDcShift ≠ 0)]
  rw [Int.ediv_eq_zero_of_lt h0 h1]
  ring

/-! ## C7: request id allocator -/

theorem allocIds_eq_range (n : Nat) : ∀ counter : Nat,
    counter + n < kHalfIntMax →
    allocIds n counter = List.range' (counter + 1) n := by
  induction n with
  | zero => intro c _; simp [allocIds]
  | succ n ih =>
    intro c hc
    have hne : c + 1 ≠ kHalfIntMax := by omega
    simp only [allocIds, GetNextRequestId, hne, if_false]
    rw [List.range'_succ, ih (c + 1) (by omega)]

/-- C7: the request id allocator always returns a positive id and never 0;
when the returned value equals half the maximum signed integer the counter
resets to 0 (so from `INT_MAX/2 - 1` the next two ids are `INT_MAX/2` and
then 1); and any run of `N < INT_MAX/2` allocations from a fresh counter
issues pairwise-distinct ids. -/
theorem c7_request_id_allocator (n : Nat) (h : n < kHalfIntMax) :
    (∀ counter, 0 < (GetNextRequestId counter).1) ∧
    GetNextRequestId (kHalfIntMax - 1) = (kHalfIntMax, 0) ∧
    (GetNextRequestId (GetNextRequestId (kHalfIntMax - 1)).2).1 = 1 ∧
    (allocIds n 0).Nodup := by
  refine ⟨fun c => by simp [GetNextRequestId], by norm_num [GetNextRequestId, kHalfIntMax],
    by norm_num [GetNextRequestId, kHalfIntMax], ?_⟩
  rw [allocIds_eq_range n 0 (by omega)]
  exact List.nodup_range' _ _

/-- Witness for C7 at `n = 5`. -/
theorem c7_request_id_allocator_witness :
    5 < kHalfIntMax ∧
    ((∀ counter, 0 < (GetNextRequestId counter).1) ∧
      GetNextRequestId (kHalfIntMax - 1) = (kHalfIntMax, 0) ∧
      (GetNextRequestId (GetNextRequestId (kHalfIntMax - 1)).2).1 = 1 ∧
      (allocIds 5 0).Nodup) :=
  ⟨by norm_num [kHalfIntMax],
    c7_request_id_allocator 5 (by norm_num [kHalfIntMax])⟩

/-! ## C1: transient/server-error backoff -/

theorem transientDelaySeq_closed (n : Nat) (h : 1 ≤ n) :
    transientDelaySeq n = (min (2 ^ (n - 1)) 64, some (min (2 ^ (n - 1)) 64)) := by
  induction n with
  | zero => omega
  | succ n ih =>
    by_cases hn : n = 0
    · subst hn; decide
    · have h1 : 1 ≤ n := by omega
      have hclosed := ih h1
      simp only [transientDelaySeq, hclosed, transientSecs]
      by_cases h6 : n ≤ 6
      · have hle : 2 ^ (n - 1) ≤ 32 := by
          calc 2 ^ (n - 1) ≤ 2 ^ 5 := Nat.pow_le_pow_right (by norm_num) (by omega)
          _ = 32 := by norm_num
        have h3 : 2 ^ n ≤ 64 := by
          calc 2 ^ n ≤ 2 ^ 6 := Nat.pow_le_pow_right (by norm_num) (by omega)
          _ = 64 := by norm_num
        have hmin : min (2 ^ (n - 1)) 64 = 2 ^ (n - 1) := min_eq_left (by omega)
        rw [hmin, if_neg (by omega : ¬ 2 ^ (n - 1) > 60)]
        have h2 : 2 * 2 ^ (n - 1) = 2 ^ n := by
          rw [← pow_succ']
          congr 1
          omega
        have hmin2 : min (2 ^ (n + 1 - 1)) 64 = 2 ^ n := by
          simp only [Nat.add_sub_cancel]
          exact min_eq_left h3
        rw [hmin2, h2]
      · have hge : 64 ≤ 2 ^ (n - 1) := by
          calc (64 : Nat) = 2 ^ 6 := by norm_num
          _ ≤ 2 ^ (n - 1) := Nat.pow_le_pow_right (by norm_num) (by omega)
        have hge2 : 64 ≤ 2 ^ n := by
          calc (64 : Nat) = 2 ^ 6 := by norm_num
          _ ≤ 2 ^ n := Nat.pow_le_pow_right (by norm_num) (by omega)
        have hmin : min (2 ^ (n - 1)) 64 = 64 := min_eq_right hge
        rw [hmin, if_pos (by omega : (64 : Nat) > 60)]
        have hmin2 : min (2 ^ (n + 1 - 1)) 64 = 64 := by
          simp only [Nat.add_sub_cancel]
          exact min_eq_right hge2
        rw [hmin2]

/-- C1 (amended): on the `n`-th consecutive transient/server error for one
request the backoff delay is `min (2^(n-1)) 64` seconds — it starts at 1,
doubles while at most 60, and stabilizes at 64 (not 60) — and the request
is enqueued with due time `now + delay*1000 + 10` milliseconds. -/
theorem c1_transient_backoff (n now requestId : Nat) (h : 1 ≤ n) :
    (transientDelaySeq n).1 = min (2 ^ (n - 1)) 64 ∧
    (transientDelaySeq n).1 ≤ 64 ∧
    serverErrorStep requestId now (transientDelaySeq (n - 1)).2 [] =
      ((transientDelaySeq n).2,
        [(requestId, now + (transientDelaySeq n).1 * 1000 + 10)],
        (transientDelaySeq n).1) := by
  have hc := transientDelaySeq_closed n h
  refine ⟨by rw [hc], by rw [hc]; exact min_le_right _ _, ?_⟩
  obtain ⟨m, rfl⟩ : ∃ m, n = m + 1 := ⟨n - 1, by omega⟩
  rfl

/-- C1 counterexample: after 7 consecutive transient/server errors the
delay is 64 seconds, which exceeds the claimed cap of 60 seconds. -/
theorem c1_transient_backoff_counterexample :
    (transientDelaySeq 7).1 = 64 ∧ ¬ (transientDelaySeq 7).1 ≤ 60 := by
  decide

/-- Witness for C1 at `n = 3`. -/
theorem c1_transient_backoff_witness :
    1 ≤ 3 ∧
    ((transientDelaySeq 3).1 = min (2 ^ (3 - 1)) 64 ∧
      (transientDelaySeq 3).1 ≤ 64 ∧
      serverErrorStep 11 5000 (transientDelaySeq (3 - 1)).2 [] =
        ((transientDelaySeq 3).2,
          [(11, 5000 + (transientDelaySeq 3).1 * 1000 + 10)],
          (transientDelaySeq 3).1)) :=
  ⟨by decide, c1_transient_backoff 3 5000 11 (by decide)⟩

/-! ## C6: `changeRequestByDc` -/

/-- C6: `changeRequestByDc` preserves sign and shift — a negative stored
routing (main-DC request) becomes `-newdc`, a non-negative one becomes
`compose(newdc, shift(stored))`; an absent id leaves the map unchanged and
reports absence. -/
theorem c6_change_routing (requestsByDc : List (Nat × Int)) (requestId : Nat)
    (newdc : Int) (h0 : 0 < newdc) (h1 : newdc < kDcShift) :
    (lookupA requestsByDc requestId = none →
      changeRequestByDc requestsByDc requestId newdc = (none, requestsByDc)) ∧
    ∀ v, lookupA requestsByDc requestId = some v →
      ∃ v2,
        changeRequestByDc requestsByDc requestId newdc =
          (some v2, setA requestsByDc requestId v2) ∧
        (v < 0 → v2 = -newdc) ∧
        (0 ≤ v → v2 = ShiftDcId newdc (GetDcIdShift v)) ∧
        (v2 < 0 ↔ v < 0) ∧
        BareDcId (|v2|) = newdc ∧
        (0 ≤ v → GetDcIdShift v2 = GetDcIdShift v) := by
  constructor
  · intro h
    simp [changeRequestByDc, h]
  · intro v hv
    by_cases hneg : v < 0
    · refine ⟨-newdc, ?_, fun _ => rfl, fun h2 => absurd hneg (by omega), ?_, ?_,
        fun h2 => absurd hneg (by omega)⟩
      · simp [changeRequestByDc, hv, hneg]
      · constructor <;> intro <;> omega
      · have habs : |(-newdc)| = newdc := by rw [abs_neg]; exact abs_of_pos h0
        rw [habs]
        unfold BareDcId
        exact Int.emod_eq_of_lt (by omega) h1
    · have hge : 0 ≤ v := by omega
      have hshift : 0 ≤ GetDcIdShift v :=
        Int.ediv_nonneg hge (by norm_num [kDcShift])
      have hpos : 0 ≤ ShiftDcId newdc (GetDcIdShift v) := by
        unfold ShiftDcId
        have := mul_nonneg (by norm_num [kDcShift] : (0:Int) ≤ kDcShift) hshift
        omega
      refine ⟨ShiftDcId newdc (GetDcIdShift v), ?_, fun h2 => absurd h2 hneg,
        fun _ => rfl, ?_, ?_, fun _ => ?_⟩
      · simp [changeRequestByDc, hv, hneg]
      · constructor <;> intro <;> omega
      · rw [abs_of_nonneg hpos]
        exact bareDcId_shiftDcId newdc (GetDcIdShift v) (by omega) h1
      · exact getDcIdShift_shiftDcId newdc (GetDcIdShift v) (by omega) h1

/-- Witness for C6 on the routing map `[(9, 20003)]` with new bare DC 4. -/
theorem c6_change_routing_witness :
    lookupA [(9, (20003 : Int))] 9 = some 20003 ∧
    ∃ v2,
      changeRequestByDc [(9, (20003 : Int))] 9 4 =
        (some v2, setA [(9, (20003 : Int))] 9 v2) ∧
      ((20003 : Int) < 0 → v2 = -4) ∧
      (0 ≤ (20003 : Int) → v2 = ShiftDcId 4 (GetDcIdShift 20003)) ∧
      (v2 < 0 ↔ (20003 : Int) < 0) ∧
      BareDcId (|v2|) = 4 ∧
      (0 ≤ (20003 : Int) → GetDcIdShift v2 = GetDcIdShift 20003) :=
  ⟨by decide,
    (c6_change_routing [(9, 20003)] 9 4 (by decide) (by decide)).2 20003 (by decide)⟩

/-! ## C4: delayed scheduler -/

theorem enqueueDelayed_fresh (q : List (Nat × Nat)) (requestId t : Nat)
    (h : ∀ x ∈ q, x.1 ≠ requestId) :
    enqueueDelayed q requestId t =
      q.takeWhile (fun x => decide (x.2 ≤ t)) ++
        (requestId, t) :: q.dropWhile (fun x => decide (x.2 ≤ t)) := by
  induction q with
  | nil => simp [enqueueDelayed]
  | cons x rest ih =>
    have hx : x.1 ≠ requestId := h x (List.mem_cons_self x rest)
    by_cases hlt : t < x.2
    · have hle : ¬ x.2 ≤ t := by omega
      simp [enqueueDelayed, hx, hlt, List.takeWhile_cons, List.dropWhile_cons, hle]
    · have hle : x.2 ≤ t := by omega
      have ihr := ih (fun y hy => h y (List.mem_cons_of_mem x hy))
      simp [enqueueDelayed, hx, hlt, List.takeWhile_cons, List.dropWhile_cons, hle, ihr]

theorem enqueueDelayed_dup (q : List (Nat × Nat)) (requestId t : Nat)
    (h : (q.takeWhile (fun x => decide (x.2 ≤ t))).any
      (fun x => x.1 == requestId) = true) :
    enqueueDelayed q requestId t = q := by
  induction q with
  | nil => simp at h
  | cons x rest ih =>
    by_cases hle : x.2 ≤ t
    · rw [List.takeWhile_cons, if_pos (by simpa using hle)] at h
      simp only [List.any_cons, Bool.or_eq_true, beq_iff_eq] at h
      rcases h with h | h
      · simp [enqueueDelayed, h]
      · by_cases hx : x.1 = requestId
        · simp [enqueueDelayed, hx]
        · have hlt : ¬ t < x.2 := by omega
          simp only [enqueueDelayed, hx, if_false, hlt]
          rw [ih (by simpa using h)]
    · rw [List.takeWhile_cons, if_neg (by simpa using hle)] at h
      simp at h

theorem checkDelayedRequests_eq (q : List (Nat × Nat)) (now : Nat) :
    checkDelayedRequests q now =
      (q.takeWhile (fun x => decide (x.2 ≤ now)),
        q.dropWhile (fun x => decide (x.2 ≤ now))) := by
  induction q with
  | nil => rfl
  | cons x rest ih =>
    by_cases hle : x.2 ≤ now
    · simp [checkDelayedRequests, hle, List.takeWhile_cons, List.dropWhile_cons, ih]
    · simp [checkDelayedRequests, hle, List.takeWhile_cons, List.dropWhile_cons]

theorem takeWhile_eq_filter_of_sorted (q : List (Nat × Nat)) (now : Nat)
    (hsorted : q.Pairwise (fun a b => a.2 ≤ b.2)) :
    q.takeWhile (fun x => decide (x.2 ≤ now)) =
      q.filter (fun x => decide (x.2 ≤ now)) := by
  induction q with
  | nil => rfl
  | cons x rest ih =>
    rcases List.pairwise_cons.mp hsorted with ⟨hall, hrest⟩
    by_cases hle : x.2 ≤ now
    · simp [List.takeWhile_cons, List.filter_cons, hle, ih hrest]
    · have hnone : rest.filter (fun x => decide (x.2 ≤ now)) = [] := by
        rw [List.filter_eq_nil_iff]
        intro a ha
        simp only [decide_eq_true_eq]
        have := hall a ha
        omega
      simp [List.takeWhile_cons, List.filter_cons, hle, hnone]

theorem dropWhile_eq_filter_of_sorted (q : List (Nat × Nat)) (now : Nat)
    (hsorted : q.Pairwise (fun a b => a.2 ≤ b.2)) :
    q.dropWhile (fun x => decide (x.2 ≤ now)) =
      q.filter (fun x => decide (¬ x.2 ≤ now)) := by
  induction q with
  | nil => rfl
  | cons x rest ih =>
    rcases List.pairwise_cons.mp hsorted with ⟨hall, hrest⟩
    by_cases hle : x.2 ≤ now
    · rw [List.dropWhile_cons, if_pos (by simpa using hle), List.filter_cons,
        if_neg (by simpa using hle)]
      exact ih hrest
    · have hall2 : rest.filter (fun x => decide (¬ x.2 ≤ now)) = rest := by
        rw [List.filter_eq_self]
        intro a ha
        simp only [decide_eq_true_eq]
        have := hall a ha
        omega
      rw [List.dropWhile_cons, if_neg (by simpa using hle), List.filter_cons,
        if_pos (by simpa using hle), hall2]

/-- C4 (amended): `enqueueDelayed` inserts the entry at the first position
whose due time is strictly greater than the new due time (entries with an
equal due time stay in front of it); an id already present in the scanned
front of the queue keeps the queue unchanged (the sooner-firing entry
wins); a `FLOOD_WAIT_0` enqueues a re-send 10 ms from now; and on timer
fire exactly the due entries of the (sorted) queue are drained, in
order. -/
theorem c4_delayed_scheduler (q : List (Nat × Nat)) (requestId t now S : Nat)
    (hsorted : q.Pairwise (fun a b => a.2 ≤ b.2)) :
    ((∀ x ∈ q, x.1 ≠ requestId) →
      enqueueDelayed q requestId t =
        q.takeWhile (fun x => decide (x.2 ≤ t)) ++
          (requestId, t) :: q.dropWhile (fun x => decide (x.2 ≤ t))) ∧
    ((q.takeWhile (fun x => decide (x.2 ≤ t))).any
        (fun x => x.1 == requestId) = true →
      enqueueDelayed q requestId t = q) ∧
    floodErrorStep requestId S now [] = [(requestId, now + S * 1000 + 10)] ∧
    floodErrorStep requestId 0 now [] = [(requestId, now + 10)] ∧
    (checkDelayedRequests q now).1 = q.filter (fun x => decide (x.2 ≤ now)) ∧
    (checkDelayedRequests q now).2 = q.filter (fun x => decide (¬ x.2 ≤ now)) := by
  refine ⟨enqueueDelayed_fresh q requestId t, enqueueDelayed_dup q requestId t,
    by simp [floodErrorStep, enqueueDelayed],
    by simp [floodErrorStep, enqueueDelayed], ?_, ?_⟩
  · rw [checkDelayedRequests_eq]
    exact takeWhile_eq_filter_of_sorted q now hsorted
  · rw [checkDelayedRequests_eq]
    exact dropWhile_eq_filter_of_sorted q now hsorted

/-- C4 counterexample: enqueuing an entry whose due time ties an existing
entry places it after that entry, not at the first position with due time
greater than or equal as the claim states. -/
theorem c4_delayed_scheduler_counterexample :
    enqueueDelayed [(5, 100)] 7 100 = [(5, 100), (7, 100)] ∧
    enqueueDelayedSpec [(5, 100)] 7 100 = [(7, 100), (5, 100)] ∧
    enqueueDelayed [(5, 100)] 7 100 ≠ enqueueDelayedSpec [(5, 100)] 7 100 := by
  decide

/-- Witness for C4 on the queue `[(3, 50), (5, 100)]`. -/
theorem c4_delayed_scheduler_witness :
    ([(3, 50), (5, 100)] : List (Nat × Nat)).Pairwise (fun a b => a.2 ≤ b.2) ∧
    ((∀ x ∈ ([(3, 50), (5, 100)] : List (Nat × Nat)), x.1 ≠ 7) →
      enqueueDelayed [(3, 50), (5, 100)] 7 100 =
        ([(3, 50), (5, 100)] : List (Nat × Nat)).takeWhile
            (fun x => decide (x.2 ≤ 100)) ++
          (7, 100) :: ([(3, 50), (5, 100)] : List (Nat × Nat)).dropWhile
            (fun x => decide (x.2 ≤ 100))) ∧
    ((([(3, 50), (5, 100)] : List (Nat × Nat)).takeWhile
        (fun x => decide (x.2 ≤ 100))).any (fun x => x.1 == 7) = true →
      enqueueDelayed [(3, 50), (5, 100)] 7 100 = [(3, 50), (5, 100)]) ∧
    floodErrorStep 7 3 60 [] = [(7, 60 + 3 * 1000 + 10)] ∧
    floodErrorStep 7 0 60 [] = [(7, 60 + 10)] ∧
    (checkDelayedRequests [(3, 50), (5, 100)] 60).1 =
      ([(3, 50), (5, 100)] : List (Nat × Nat)).filter
        (fun x => decide (x.2 ≤ 60)) ∧
    (checkDelayedRequests [(3, 50), (5, 100)] 60).2 =
      ([(3, 50), (5, 100)] : List (Nat × Nat)).filter
        (fun x => decide (¬ x.2 ≤ 60)) :=
  ⟨by decide, c4_delayed_scheduler [(3, 50), (5, 100)] 7 100 60 3 (by decide)⟩

/-! ## C2: migrate -/

/-- C2: on a `MIGRATE_N` error for a request with known routing and stored
payload, a negative (main-DC) routing updates the main DC id to `N` with
no auth export/import state touched and re-registers the routing as `-N`;
a positive routing becomes `compose(N, shift(current))`; in both cases the
sign is preserved and the payload is re-sent via the target session; and
replaying the same `MIGRATE_N` again leaves the routing map unchanged. -/
theorem c2_migrate (s : MigrateState) (requestId : Nat) (newdc r : Int)
    (hreq : requestId ≠ 0)
    (hr : lookupA s.requestsByDc requestId = some r) (hr0 : r ≠ 0)
    (hp : (lookupA s.requestMap requestId).isSome)
    (h0 : 0 < newdc) (h1 : newdc < kDcShift) :
    ∃ s1 ev,
      onErrorMigrate s requestId newdc = (true, s1, ev) ∧
      (r < 0 →
        s1.mainDcId = newdc ∧
        lookupA s1.requestsByDc requestId = some (-newdc) ∧
        s1.authExportRequests = s.authExportRequests ∧
        s1.authWaiters = s.authWaiters ∧
        ev = [Event.setMainDc newdc, Event.sendPrepared newdc requestId]) ∧
      (0 < r →
        s1.mainDcId = s.mainDcId ∧
        lookupA s1.requestsByDc requestId =
          some (ShiftDcId newdc (GetDcIdShift r)) ∧
        s1.authExportRequests = s.authExportRequests ∧
        s1.authWaiters = s.authWaiters ∧
        ev = [Event.sendPrepared (ShiftDcId newdc (GetDcIdShift r)) requestId]) ∧
      (∀ v, lookupA s1.requestsByDc requestId = some v → (v < 0 ↔ r < 0)) ∧
      (onErrorMigrate s1 requestId newdc).2.1.requestsByDc = s1.requestsByDc := by
  obtain ⟨p, hp2⟩ := Option.isSome_iff_exists.mp hp
  have hcond : ¬ (r = 0 ∨ newdc = 0) := by push_neg; exact ⟨hr0, by omega⟩
  by_cases hneg : r < 0
  · refine ⟨{ s with
        mainDcId := newdc
        mainDcIdForced := true
        requestsByDc := setA s.requestsByDc requestId (-newdc) },
      [Event.setMainDc newdc, Event.sendPrepared newdc requestId],
      ?_, ?_, ?_, ?_, ?_⟩
    · simp [onErrorMigrate, hreq, hr, hcond, hneg, hp2]
    · intro _
      exact ⟨rfl, lookupA_setA_self _ _ _, rfl, rfl, rfl⟩
    · intro hpos; omega
    · intro v hv
      simp only [lookupA_setA_self, Option.some.injEq] at hv
      subst hv
      constructor <;> intro <;> omega
    · have hlook : lookupA (setA s.requestsByDc requestId (-newdc)) requestId =
          some (-newdc) := lookupA_setA_self _ _ _
      have hnez : ¬ newdc = 0 := by omega
      have hneg2 : (-newdc : Int) < 0 := by omega
      simp only [onErrorMigrate, hreq, if_false]
      simp [hlook, hnez, hneg2, hp2, setA_of_lookup_self _ _ _ hlook]
  · have hpos : 0 < r := by omega
    have hshift : 0 ≤ GetDcIdShift r :=
      Int.ediv_nonneg (by omega) (by norm_num [kDcShift])
    have htpos : 0 < ShiftDcId newdc (GetDcIdShift r) := by
      unfold ShiftDcId
      have := mul_nonneg (by norm_num [kDcShift] : (0:Int) ≤ kDcShift) hshift
      omega
    refine ⟨{ s with
        requestsByDc := setA s.requestsByDc requestId
          (ShiftDcId newdc (GetDcIdShift r)) },
      [Event.sendPrepared (ShiftDcId newdc (GetDcIdShift r)) requestId],
      ?_, ?_, ?_, ?_, ?_⟩
    · simp [onErrorMigrate, hreq, hr, hcond, hneg, hp2]
    · intro h2; omega
    · intro _
      exact ⟨rfl, lookupA_setA_self _ _ _, rfl, rfl, rfl⟩
    · intro v hv
      simp only [lookupA_setA_self, Option.some.injEq] at hv
      subst hv
      constructor <;> intro <;> omega
    · have hlook : lookupA
          (setA s.requestsByDc requestId (ShiftDcId newdc (GetDcIdShift r)))
          requestId = some (ShiftDcId newdc (GetDcIdShift r)) :=
        lookupA_setA_self _ _ _
      have hnez : ¬ newdc = 0 := by omega
      have htz : ¬ ShiftDcId newdc (GetDcIdShift r) = 0 := by omega
      have hneg2 : ¬ ShiftDcId newdc (GetDcIdShift r) < 0 := by omega
      have hround : GetDcIdShift (ShiftDcId newdc (GetDcIdShift r)) =
          GetDcIdShift r :=
        getDcIdShift_shiftDcId newdc (GetDcIdShift r) (by omega) h1
      simp only [onErrorMigrate, hreq, if_false]
      simp [hlook, hnez, htz, hneg2, hp2, hround, setA_of_lookup_self _ _ _ hlook]

/-- Witness for C2 with routing `compose(2, 2) = 20002` migrating to DC 4. -/
theorem c2_migrate_witness :
    ∃ s1 ev,
      onErrorMigrate ⟨[(11, 20002)], [(11, [1, 2])], 2, false, [], []⟩ 11 4 =
        (true, s1, ev) ∧
      ((20002 : Int) < 0 →
        s1.mainDcId = 4 ∧
        lookupA s1.requestsByDc 11 = some (-4) ∧
        s1.authExportRequests =
          (⟨[(11, 20002)], [(11, [1, 2])], 2, false, [], []⟩ :
            MigrateState).authExportRequests ∧
        s1.authWaiters =
          (⟨[(11, 20002)], [(11, [1, 2])], 2, false, [], []⟩ :
            MigrateState).authWaiters ∧
        ev = [Event.setMainDc 4, Event.sendPrepared 4 11]) ∧
      (0 < (20002 : Int) →
        s1.mainDcId =
          (⟨[(11, 20002)], [(11, [1, 2])], 2, false, [], []⟩ :
            MigrateState).mainDcId ∧
        lookupA s1.requestsByDc 11 = some (ShiftDcId 4 (GetDcIdShift 20002)) ∧
        s1.authExportRequests =
          (⟨[(11, 20002)], [(11, [1, 2])], 2, false, [], []⟩ :
            MigrateState).authExportRequests ∧
        s1.authWaiters =
          (⟨[(11, 20002)], [(11, [1, 2])], 2, false, [], []⟩ :
            MigrateState).authWaiters ∧
        ev = [Event.sendPrepared (ShiftDcId 4 (GetDcIdShift 20002)) 11]) ∧
      (∀ v, lookupA s1.requestsByDc 11 = some v → (v < 0 ↔ (20002 : Int) < 0)) ∧
      (onErrorMigrate s1 11 4).2.1.requestsByDc = s1.requestsByDc :=
  c2_migrate ⟨[(11, 20002)], [(11, [1, 2])], 2, false, [], []⟩ 11 4 20002
    (by decide) (by decide) (by decide) (by decide) (by decide) (by decide)

/-! ## C3: unauthorized / bad-guest-DC -/

/-- C3 (amended): for a 401 error (excluding `AUTH_KEY_PERM_EMPTY`) or a
first `FILE_ID_INVALID`, with `newBare = bareDc(|current|)`: if `newBare`
is 0, equals the main DC, or no authorization exists, the branch is
not-handled and the global fail handler fires only when the error is not
the `FILE_ID_INVALID` case; otherwise an auth export starts iff the waiter
list for `newBare` is empty, the export request id maps to `|current|`
(the full shifted id, not its bare part) in the auth-export in-flight
table, the failing id is appended to the waiter list, a `FILE_ID_INVALID`
id enters the bad-guest-DC set, and the error is handled. -/
theorem c3_unauthorized (s : AuthErrorState) (requestId : Nat)
    (code : Int) (errType : String) (exportRequestId : Nat) (r : Int)
    (hguard : (code = 401 ∧ errType ≠ "AUTH_KEY_PERM_EMPTY")
      ∨ ((code = 400 ∧ errType = "FILE_ID_INVALID") ∧
          requestId ∉ s.badGuestDcRequests))
    (hr : lookupA s.requestsByDc requestId = some r) :
    ∃ handled s1 ev,
      onErrorUnauthorized s requestId code errType exportRequestId =
        some (handled, s1, ev) ∧
      (BareDcId (|r|) = 0 ∨ BareDcId (|r|) = s.mainDcId ∨
          ¬ s.hasAuthorization →
        handled = false ∧ s1 = s ∧
        ev = (if ¬ (code = 400 ∧ errType = "FILE_ID_INVALID") ∧
            s.hasGlobalFailHandler
          then [Event.globalFail requestId] else [])) ∧
      (¬ (BareDcId (|r|) = 0 ∨ BareDcId (|r|) = s.mainDcId ∨
          ¬ s.hasAuthorization) →
        handled = true ∧
        lookupA s1.authWaiters (BareDcId (|r|)) =
          some (((lookupA s.authWaiters (BareDcId (|r|))).getD []) ++
            [requestId]) ∧
        (((lookupA s.authWaiters (BareDcId (|r|))).getD []).isEmpty = true →
          lookupA s1.authExportRequests exportRequestId = some (|r|) ∧
          ev = [Event.exportStarted (BareDcId (|r|)) exportRequestId]) ∧
        (((lookupA s.authWaiters (BareDcId (|r|))).getD []).isEmpty = false →
          s1.authExportRequests = s.authExportRequests ∧ ev = []) ∧
        ((code = 400 ∧ errType = "FILE_ID_INVALID") →
          s1.badGuestDcRequests = s.badGuestDcRequests ++ [requestId]) ∧
        (¬ (code = 400 ∧ errType = "FILE_ID_INVALID") →
          s1.badGuestDcRequests = s.badGuestDcRequests)) := by
  by_cases hsurf : BareDcId (|r|) = 0 ∨ BareDcId (|r|) = s.mainDcId ∨
      ¬ s.hasAuthorization
  · refine ⟨false, s,
      (if ¬ (code = 400 ∧ errType = "FILE_ID_INVALID") ∧ s.hasGlobalFailHandler
        then [Event.globalFail requestId] else []),
      ?_, fun _ => ⟨rfl, rfl, rfl⟩, fun hc => absurd hsurf hc⟩
    simp only [onErrorUnauthorized]
    rw [if_pos hguard]
    simp only [hr, Option.getD_some]
    rw [if_pos hsurf]
  · refine ⟨true,
      { s with
        authExportRequests :=
          if ((lookupA s.authWaiters (BareDcId (|r|))).getD []).isEmpty
            then setA s.authExportRequests exportRequestId (|r|)
            else s.authExportRequests
        authWaiters := setA s.authWaiters (BareDcId (|r|))
          (((lookupA s.authWaiters (BareDcId (|r|))).getD []) ++ [requestId])
        badGuestDcRequests :=
          if code = 400 ∧ errType = "FILE_ID_INVALID"
            then s.badGuestDcRequests ++ [requestId]
            else s.badGuestDcRequests },
      (if ((lookupA s.authWaiters (BareDcId (|r|))).getD []).isEmpty
        then [Event.exportStarted (BareDcId (|r|)) exportRequestId]
        else []),
      ?_, fun hc => absurd hc hsurf, fun _ => ?_⟩
    · simp only [onErrorUnauthorized]
      rw [if_pos hguard]
      simp only [hr, Option.getD_some]
      rw [if_neg hsurf]
      by_cases hwe : ((lookupA s.authWaiters (BareDcId (|r|))).getD []).isEmpty
      · by_cases hbad : code = 400 ∧ errType = "FILE_ID_INVALID" <;>
          simp [hwe, hbad]
      · by_cases hbad : code = 400 ∧ errType = "FILE_ID_INVALID" <;>
          simp [hwe, hbad]
    · refine ⟨rfl, lookupA_setA_self _ _ _, fun hwe => ?_, fun hwe => ?_,
        fun hbad => ?_, fun hbad => ?_⟩
      · simp [hwe, lookupA_setA_self]
      · simp [hwe]
      · simp [hbad]
      · simp [hbad]

/-- C3 counterexample: with current routing `compose(3, 2) = 20003` (bare
DC 3), the export request id 99 is mapped to 20003 in the auth-export
in-flight table — the full shifted id, not the bare DC 3 the claim
states. -/
theorem c3_unauthorized_counterexample :
    (onErrorUnauthorized ⟨[(20, 20003)], 2, true, [], [], [], true⟩ 20 401
        "UNAUTHORIZED" 99).map
      (fun res => lookupA res.2.1.authExportRequests 99) =
      some (some 20003) ∧
    BareDcId (20003 : Int) = 3 ∧ ((20003 : Int) ≠ 3) := by
  decide

/-- Witness for C3 with routing `20003`, main DC 2, authorization present
and no waiters. -/
theorem c3_unauthorized_witness :
    ∃ handled s1 ev,
      onErrorUnauthorized ⟨[(20, 20003)], 2, true, [], [], [], true⟩ 20 401
        "UNAUTHORIZED" 99 = some (handled, s1, ev) ∧
      handled = true ∧
      lookupA s1.authExportRequests 99 = some 20003 ∧
      lookupA s1.authWaiters 3 = some [20] ∧
      ev = [Event.exportStarted 3 99] := by
  obtain ⟨handled, s1, ev, hrun, _, hmain⟩ :=
    c3_unauthorized ⟨[(20, 20003)], 2, true, [], [], [], true⟩ 20 401
      "UNAUTHORIZED" 99 20003 (Or.inl ⟨rfl, by decide⟩) (by decide)
  obtain ⟨hh, hw, hexp, _, _, _⟩ := hmain (by decide)
  refine ⟨handled, s1, ev, hrun, hh, ?_, ?_, ?_⟩
  · simpa using (hexp (by decide)).1
  · simpa using hw
  · simpa using (hexp (by decide)).2

/-! ## C5: `send` followed by `cancel` -/

/-- C5: `send` immediately followed by `cancel` on the returned id removes
the routing, payload and handler entries, the routed session receives
`cancel(id, msgId)` with `msgId` read from bytes 4..12 of the stored
payload, no handler is ever invoked (the handler entry is gone and the
trace holds no handler invocation), and a second `cancel` of the same id
changes no state and emits nothing. -/
theorem c5_send_cancel (s : InstState) (requestId : Nat) (payload : List Nat)
    (callbacks : Bool × Bool) (shiftedDcId : Int)
    (hid : requestId ≠ 0)
    (h1 : keysNodup s.requestsByDc) (h2 : keysNodup s.requestMap)
    (h3 : keysNodup s.parserMap) (h4 : keysNodup s.requestsDelays) :
    ∃ sSent evSent sFin evFin,
      sendRequest s requestId payload callbacks shiftedDcId =
        (sSent, evSent) ∧
      cancel sSent requestId = (sFin, evFin) ∧
      lookupA sFin.requestsByDc requestId = none ∧
      lookupA sFin.requestMap requestId = none ∧
      lookupA sFin.parserMap requestId = none ∧
      hasCallbacks sFin requestId = false ∧
      (∃ dc, evFin =
        [Event.sessionCancel dc requestId (msgIdFromPayload payload)]) ∧
      (∀ e ∈ evSent ++ evFin, ∀ i, e ≠ Event.handlerInvoked i) ∧
      cancel sFin requestId = (sFin, []) := by
  have hsend : ∃ a b,
      sendRequest s requestId payload callbacks shiftedDcId = (a, b) :=
    ⟨_, _, rfl⟩
  obtain ⟨sSent, evSent, hsend⟩ := hsend
  have hSentByDc : sSent.requestsByDc = setA s.requestsByDc requestId
      (if shiftedDcId = 0
        then -(resolveSessionDc s.mainDcWithShift shiftedDcId)
        else resolveSessionDc s.mainDcWithShift shiftedDcId) := by
    have := congrArg (fun p => p.1.requestsByDc) hsend
    simpa [sendRequest] using this.symm
  have hSentMap : sSent.requestMap = setA s.requestMap requestId payload := by
    have := congrArg (fun p => p.1.requestMap) hsend
    simpa [sendRequest] using this.symm
  have hSentPm : sSent.parserMap =
      (if callbacks.1 || callbacks.2
        then setA s.parserMap requestId callbacks else s.parserMap) := by
    have := congrArg (fun p => p.1.parserMap) hsend
    simpa [sendRequest] using this.symm
  have hSentDel : sSent.requestsDelays = s.requestsDelays := by
    have := congrArg (fun p => p.1.requestsDelays) hsend
    simpa [sendRequest] using this.symm
  have hSentMain : sSent.mainDcWithShift = s.mainDcWithShift := by
    have := congrArg (fun p => p.1.mainDcWithShift) hsend
    simpa [sendRequest] using this.symm
  have hEvSent : evSent =
      [Event.sendPrepared (resolveSessionDc s.mainDcWithShift shiftedDcId)
        requestId] := by
    have := congrArg (fun p => p.2) hsend
    simpa [sendRequest] using this.symm
  have hlookR : lookupA sSent.requestsByDc requestId =
      some (if shiftedDcId = 0
        then -(resolveSessionDc s.mainDcWithShift shiftedDcId)
        else resolveSessionDc s.mainDcWithShift shiftedDcId) := by
    rw [hSentByDc]; exact lookupA_setA_self _ _ _
  have hlookM : lookupA sSent.requestMap requestId = some payload := by
    rw [hSentMap]; exact lookupA_setA_self _ _ _
  have hPmNodup : keysNodup sSent.parserMap := by
    rw [hSentPm]
    by_cases hc : callbacks.1 || callbacks.2
    · simpa [hc] using keysNodup_setA s.parserMap requestId callbacks h3
    · simpa [hc] using h3
  have hcancel : ∃ a b, cancel sSent requestId = (a, b) := ⟨_, _, rfl⟩
  obtain ⟨sFin, evFin, hcancel⟩ := hcancel
  have hFinByDc : sFin.requestsByDc = eraseA sSent.requestsByDc requestId := by
    have := congrArg (fun p => p.1.requestsByDc) hcancel
    simpa [cancel, hid] using this.symm
  have hFinMap : sFin.requestMap =
      eraseA (eraseA sSent.requestMap requestId) requestId := by
    have := congrArg (fun p => p.1.requestMap) hcancel
    simpa [cancel, hid] using this.symm
  have hFinPm : sFin.parserMap = eraseA sSent.parserMap requestId := by
    have := congrArg (fun p => p.1.parserMap) hcancel
    simpa [cancel, hid] using this.symm
  have hFinDel : sFin.requestsDelays = eraseA s.requestsDelays requestId := by
    have := congrArg (fun p => p.1.requestsDelays) hcancel
    simpa [cancel, hid, hSentDel] using this.symm
  have hFinMain : sFin.mainDcWithShift = s.mainDcWithShift := by
    have := congrArg (fun p => p.1.mainDcWithShift) hcancel
    simpa [cancel, hid, hSentMain] using this.symm
  have hEvFin : evFin =
      [Event.sessionCancel
        (resolveSessionDc s.mainDcWithShift
          (|(if shiftedDcId = 0
            then -(resolveSessionDc s.mainDcWithShift shiftedDcId)
            else resolveSessionDc s.mainDcWithShift shiftedDcId)|))
        requestId (msgIdFromPayload payload)] := by
    have := congrArg (fun p => p.2) hcancel
    simpa [cancel, hid, hlookR, hlookM, hSentMain] using this.symm
  have hNoneByDc : lookupA sFin.requestsByDc requestId = none := by
    have hn : keysNodup sSent.requestsByDc := by
      rw [hSentByDc]
      exact keysNodup_setA _ _ _ h1
    rw [hFinByDc]
    exact lookupA_eraseA_self _ _ hn
  have hNoneMap : lookupA sFin.requestMap requestId = none := by
    have hn : keysNodup sSent.requestMap := by
      rw [hSentMap]
      exact keysNodup_setA _ _ _ h2
    rw [hFinMap]
    exact lookupA_eraseA_self _ _ (keysNodup_eraseA _ _ hn)
  have hNonePm : lookupA sFin.parserMap requestId = none := by
    rw [hFinPm]
    exact lookupA_eraseA_self _ _ hPmNodup
  have hNoneDel : lookupA sFin.requestsDelays requestId = none := by
    rw [hFinDel]
    exact lookupA_eraseA_self _ _ h4
  refine ⟨sSent, evSent, sFin, evFin, hsend, hcancel, hNoneByDc, hNoneMap,
    hNonePm, by simp [hasCallbacks, hNonePm], ⟨_, hEvFin⟩, ?_, ?_⟩
  · intro e he i
    rw [hEvSent, hEvFin] at he
    simp only [List.cons_append, List.nil_append, List.mem_cons,
      List.not_mem_nil, or_false] at he
    rcases he with rfl | rfl
    · simp
    · simp
  · have e1 : eraseA sFin.requestMap requestId = sFin.requestMap :=
      eraseA_of_lookup_none _ _ hNoneMap
    have e2 : eraseA sFin.requestsByDc requestId = sFin.requestsByDc :=
      eraseA_of_lookup_none _ _ hNoneByDc
    have e3 : eraseA sFin.parserMap requestId = sFin.parserMap :=
      eraseA_of_lookup_none _ _ hNonePm
    have e4 : eraseA sFin.requestsDelays requestId = sFin.requestsDelays :=
      eraseA_of_lookup_none _ _ hNoneDel
    simp [cancel, hid, hNoneByDc, hNoneMap, e1, e2, e3, e4]

/-- Witness for C5: a send to shifted DC 3 followed by its cancel, from an
empty table with main session on DC 2. -/
theorem c5_send_cancel_witness :
    ∃ sSent evSent sFin evFin,
      sendRequest ⟨2, [], [], [], []⟩ 30 [0, 0, 0, 0, 1, 2, 3, 4, 5, 6, 7, 8]
        (true, true) 3 = (sSent, evSent) ∧
      cancel sSent 30 = (sFin, evFin) ∧
      lookupA sFin.requestsByDc 30 = none ∧
      lookupA sFin.requestMap 30 = none ∧
      lookupA sFin.parserMap 30 = none ∧
      hasCallbacks sFin 30 = false ∧
      (∃ dc, evFin = [Event.sessionCancel dc 30
        (msgIdFromPayload [0, 0, 0, 0, 1, 2, 3, 4, 5, 6, 7, 8])]) ∧
      (∀ e ∈ evSent ++ evFin, ∀ i, e ≠ Event.handlerInvoked i) ∧
      cancel sFin 30 = (sFin, []) :=
  c5_send_cancel ⟨2, [], [], [], []⟩ 30 [0, 0, 0, 0, 1, 2, 3, 4, 5, 6, 7, 8]
    (true, true) 3 (by decide) (by simp [keysNodup]) (by simp [keysNodup])
    (by simp [keysNodup]) (by simp [keysNodup])

/-! ## C8: config controller -/

/-- C8: `requestConfig` is a no-op whenever a config loader is live or the
instance is in key-destroyer mode; `requestCDNConfig` is a no-op whenever
a CDN-config request is pending or no main DC exists; and across any
sequence of config-controller operations at most one config loader is
live. -/
theorem c8_config_single_flight (s0 : ConfigState) (ops : List ConfigOp)
    (hinit : s0.configLoaderLive ≤ 1) :
    (∀ s : ConfigState, s.configLoaderLive ≠ 0 ∨ s.isKeysDestroyer = true →
      requestConfig s = s) ∧
    (∀ (s : ConfigState) (n : Nat),
      s.cdnConfigLoadRequestId ≠ 0 ∨ s.mainDcId = kNoneMainDc →
      requestCDNConfig s n = s) ∧
    (ops.foldl applyConfigOp s0).configLoaderLive ≤ 1 := by
  refine ⟨?_, ?_, ?_⟩
  · intro s h
    rcases h with h | h
    · simp [requestConfig, h]
    · simp [requestConfig, h]
  · intro s n h
    rcases h with h | h
    · simp [requestCDNConfig, h]
    · simp [requestCDNConfig, h]
  · induction ops generalizing s0 with
    | nil => simpa using hinit
    | cons op rest ih =>
      rw [List.foldl_cons]
      refine ih _ ?_
      cases op with
      | requestConfig =>
        simp only [applyConfigOp, requestConfig]
        split
        · exact hinit
        · rename_i h
          push_neg at h
          simp [h.1]
      | configLoadDone => simp [applyConfigOp, configLoadDone]
      | requestCDNConfig n =>
        simp only [applyConfigOp, requestCDNConfig]
        split
        · exact hinit
        · simpa using hinit
      | cdnConfigDone => simpa [applyConfigOp, cdnConfigDone] using hinit

/-- Witness for C8: a double `requestConfig`, a load completion, a CDN
request and another `requestConfig`. -/
theorem c8_config_single_flight_witness :
    (⟨0, 0, false, 2⟩ : ConfigState).configLoaderLive ≤ 1 ∧
    ((∀ s : ConfigState, s.configLoaderLive ≠ 0 ∨ s.isKeysDestroyer = true →
        requestConfig s = s) ∧
      (∀ (s : ConfigState) (n : Nat),
        s.cdnConfigLoadRequestId ≠ 0 ∨ s.mainDcId = kNoneMainDc →
        requestCDNConfig s n = s) ∧
      (([ConfigOp.requestConfig, ConfigOp.requestConfig,
          ConfigOp.configLoadDone, ConfigOp.requestCDNConfig 5,
          ConfigOp.requestConfig].foldl applyConfigOp
          ⟨0, 0, false, 2⟩).configLoaderLive ≤ 1)) :=
  ⟨by decide,
    c8_config_single_flight ⟨0, 0, false, 2⟩
      [ConfigOp.requestConfig, ConfigOp.requestConfig,
        ConfigOp.configLoadDone, ConfigOp.requestCDNConfig 5,
        ConfigOp.requestConfig] (by decide)⟩

/-! ## C9: key destroyer -/

theorem getDcIdShift_destroyKeyNextDcId (s : Int) :
    GetDcIdShift s < GetDcIdShift (destroyKeyNextDcId s) := by
  unfold destroyKeyNextDcId ShiftDcId kDestroyKeyStartDcShift GetDcIdShift
  unfold BareDcId kDcShift
  have hb0 : 0 ≤ s % 10000 := Int.emod_nonneg s (by norm_num)
  have hb1 : s % 10000 < 10000 := Int.emod_lt_of_pos s (by norm_num)
  have hdiv : s % 10000 / 10000 = 0 := Int.ediv_eq_zero_of_lt hb0 hb1
  rw [Int.add_mul_ediv_left _ _ (by norm_num : (10000 : Int) ≠ 0), hdiv]
  split <;> omega

theorem le_maxShiftOf (l : List Int) (s : Int) (h : s ∈ l) :
    GetDcIdShift s ≤ maxShiftOf l := by
  induction l with
  | nil => cases h
  | cons a t ih =>
    have hfold : maxShiftOf (a :: t) = max (GetDcIdShift a) (maxShiftOf t) := by
      simp [maxShiftOf]
    rcases List.mem_cons.mp h with rfl | h
    · rw [hfold]; exact le_max_left _ _
    · rw [hfold]; exact le_trans (ih h) (le_max_right _ _)

theorem freshDestroyIdIter_not_mem (usedIds : List Int) (n : Nat) :
    ∀ s : Int, (maxShiftOf usedIds + 1 - GetDcIdShift s).toNat ≤ n →
      freshDestroyIdIter usedIds n s ∉ usedIds := by
  induction n with
  | zero =>
    intro s hs hmem
    simp only [freshDestroyIdIter] at hmem
    have := le_maxShiftOf usedIds s hmem
    omega
  | succ n ih =>
    intro s hs
    simp only [freshDestroyIdIter]
    split
    · rename_i hmem
      apply ih
      have := le_maxShiftOf usedIds s hmem
      have := getDcIdShift_destroyKeyNextDcId s
      omega
    · rename_i hmem
      exact hmem

/-- The collision loop of `start` never returns an id already used as a
`_keysForWrite` key. -/
theorem freshDestroyId_not_mem (usedIds : List Int) (s : Int) :
    freshDestroyId usedIds s ∉ usedIds :=
  freshDestroyIdIter_not_mem usedIds _ s le_rfl

theorem startDestroyerAddKey_inv (s : DestroyerState) (dcId : Int) (key : Nat)
    (hmap : s.keysForWrite.map Prod.fst = s.dcenters)
    (hnodup : s.dcenters.Nodup) :
    (startDestroyerAddKey s dcId key).keysForWrite.map Prod.fst =
      (startDestroyerAddKey s dcId key).dcenters ∧
    (startDestroyerAddKey s dcId key).dcenters.Nodup ∧
    (startDestroyerAddKey s dcId key).dcenters.length =
      s.dcenters.length + 1 ∧
    (startDestroyerAddKey s dcId key).sessions = s.sessions ∧
    (startDestroyerAddKey s dcId key).allKeysDestroyedFired =
      s.allKeysDestroyedFired := by
  set d := freshDestroyId (s.keysForWrite.map Prod.fst)
    (destroyKeyNextDcId dcId) with hd
  have hfreshK : d ∉ s.keysForWrite.map Prod.fst := freshDestroyId_not_mem _ _
  have hfreshD : d ∉ s.dcenters := by
    rw [← hmap]; exact hfreshK
  have hset : setA s.keysForWrite d key = s.keysForWrite ++ [(d, key)] :=
    setA_of_lookup_none _ _ _ (lookupA_eq_none _ _ hfreshK)
  have hadd : startDestroyerAddKey s dcId key =
      { s with
        keysForWrite := s.keysForWrite ++ [(d, key)]
        dcenters := s.dcenters ++ [d] } := by
    simp only [startDestroyerAddKey, ← hd, hset, if_neg hfreshD]
  rw [hadd]
  refine ⟨?_, ?_, by simp, rfl, rfl⟩
  · simp [hmap]
  · simp [List.nodup_append, hnodup, hfreshD]

theorem startDestroyer_foldl_inv (keys : List (Int × Nat)) :
    ∀ s : DestroyerState,
      s.keysForWrite.map Prod.fst = s.dcenters → s.dcenters.Nodup →
      (keys.foldl (fun a kv => startDestroyerAddKey a kv.1 kv.2)
          s).keysForWrite.map Prod.fst =
        (keys.foldl (fun a kv => startDestroyerAddKey a kv.1 kv.2) s).dcenters ∧
      (keys.foldl (fun a kv => startDestroyerAddKey a kv.1 kv.2)
          s).dcenters.Nodup ∧
      (keys.foldl (fun a kv => startDestroyerAddKey a kv.1 kv.2)
          s).dcenters.length = s.dcenters.length + keys.length ∧
      (keys.foldl (fun a kv => startDestroyerAddKey a kv.1 kv.2)
          s).sessions = s.sessions ∧
      (keys.foldl (fun a kv => startDestroyerAddKey a kv.1 kv.2)
          s).allKeysDestroyedFired = s.allKeysDestroyedFired := by
  induction keys with
  | nil =>
    intro s h1 h2
    exact ⟨h1, h2, by simp, rfl, rfl⟩
  | cons kv rest ih =>
    intro s h1 h2
    obtain ⟨a1, a2, a3, a4, a5⟩ := startDestroyerAddKey_inv s kv.1 kv.2 h1 h2
    obtain ⟨b1, b2, b3, b4, b5⟩ := ih (startDestroyerAddKey s kv.1 kv.2) a1 a2
    rw [List.foldl_cons]
    refine ⟨b1, b2, ?_, by rw [b4, a4], by rw [b5, a5]⟩
    rw [b3, a3, List.length_cons]
    omega

theorem destroyRun (order : List Int) :
    ∀ s : DestroyerState,
      order.Perm s.dcenters → s.dcenters.Nodup →
      s.keysForWrite.map Prod.fst = s.dcenters → s.sessions = s.dcenters →
      s.allKeysDestroyedFired = 0 →
      (order.foldl completedKeyDestroy s).dcenters = [] ∧
      (order.foldl completedKeyDestroy s).keysForWrite = [] ∧
      (order.foldl completedKeyDestroy s).sessions = [] ∧
      (order.foldl completedKeyDestroy s).allKeysDestroyedFired =
        (if order.isEmpty then 0 else 1) ∧
      ∀ k, k < order.length →
        ((order.take k).foldl completedKeyDestroy
          s).allKeysDestroyedFired = 0 := by
  induction order with
  | nil =>
    intro s hperm _ hmap hsess hfired
    have hdc : s.dcenters = [] := List.perm_nil.mp hperm.symm
    have hkw : s.keysForWrite = [] := by
      have := hmap.trans hdc
      exact List.map_eq_nil_iff.mp this
    refine ⟨hdc, hkw, hsess.trans hdc, by simpa using hfired, ?_⟩
    intro k hk
    simp at hk
  | cons d rest ih =>
    intro s hperm hnodup hmap hsess hfired
    have hdmem : d ∈ s.dcenters := hperm.subset (List.mem_cons_self d rest)
    have hrest : rest.Perm (s.dcenters.erase d) :=
      (List.cons_perm_iff_perm_erase.mp hperm).2
    have hmap2 : (completedKeyDestroy s d).keysForWrite.map Prod.fst =
        (completedKeyDestroy s d).dcenters := by
      simp only [completedKeyDestroy, map_fst_eraseA, hmap]
    have hsess2 : (completedKeyDestroy s d).sessions =
        (completedKeyDestroy s d).dcenters := by
      simp only [completedKeyDestroy, hsess]
    have hnodup2 : (completedKeyDestroy s d).dcenters.Nodup := by
      simp only [completedKeyDestroy]
      exact hnodup.erase d
    by_cases hre : rest = []
    · subst hre
      have herase : s.dcenters.erase d = [] := List.perm_nil.mp hrest.symm
      have hfired2 : (completedKeyDestroy s d).allKeysDestroyedFired = 1 := by
        simp [completedKeyDestroy, herase, hfired]
      refine ⟨?_, ?_, ?_, ?_, ?_⟩
      · simpa [completedKeyDestroy] using herase
      · have := hmap2
        simp only [completedKeyDestroy] at this ⊢
        rw [herase] at this
        exact List.map_eq_nil_iff.mp this
      · have := hsess2
        simp only [completedKeyDestroy] at this ⊢
        rw [herase] at this
        exact this
      · simpa using hfired2
      · intro k hk
        have hk0 : k = 0 := by simpa using hk
        subst hk0
        simpa using hfired
    · have herase : s.dcenters.erase d ≠ [] := by
        intro h0
        rw [h0] at hrest
        exact hre (List.perm_nil.mp hrest)
      have hfired2 : (completedKeyDestroy s d).allKeysDestroyedFired = 0 := by
        simp only [completedKeyDestroy]
        rw [if_neg (by simpa [List.isEmpty_iff] using herase)]
        exact hfired
      obtain ⟨b1, b2, b3, b4, b5⟩ :=
        ih (completedKeyDestroy s d) (by simpa [completedKeyDestroy] using hrest)
          hnodup2 hmap2 hsess2 hfired2
      refine ⟨b1, b2, b3, ?_, ?_⟩
      · rw [List.foldl_cons] at *
        rw [b4]
        simp [hre]
      · intro k hk
        cases k with
        | zero => simpa using hfired
        | succ j =>
          have hj : j < rest.length := by simpa using hk
          have := b5 j hj
          simpa using this

/-- C9: in key-destroyer mode `start` places every input key under a
distinct synthetic shifted DC id (one DC block per key); each
`completedKeyDestroy` removes that DC block, its key and its session; and
over a run destroying every created DC exactly once, `allKeysDestroyed`
fires exactly once, at the `completedKeyDestroy` that empties the DC
registry. -/
theorem c9_key_destroyer (keys : List (Int × Nat)) (order : List Int)
    (hkeys : keys ≠ [])
    (hperm : order.Perm (startDestroyer keys).dcenters) :
    ((startDestroyer keys).keysForWrite.map Prod.fst).Nodup ∧
    (startDestroyer keys).keysForWrite.map Prod.fst =
      (startDestroyer keys).dcenters ∧
    (startDestroyer keys).dcenters.length = keys.length ∧
    (startDestroyer keys).sessions = (startDestroyer keys).dcenters ∧
    (order.foldl completedKeyDestroy (startDestroyer keys)).dcenters = [] ∧
    (order.foldl completedKeyDestroy (startDestroyer keys)).keysForWrite
      = [] ∧
    (order.foldl completedKeyDestroy (startDestroyer keys)).sessions = [] ∧
    (order.foldl completedKeyDestroy
      (startDestroyer keys)).allKeysDestroyedFired = 1 ∧
    ∀ k, k < order.length →
      ((order.take k).foldl completedKeyDestroy
        (startDestroyer keys)).allKeysDestroyedFired = 0 := by
  obtain ⟨a1, a2, a3, a4, a5⟩ :=
    startDestroyer_foldl_inv keys ⟨[], [], [], 0⟩ rfl List.nodup_nil
  have hs1 : (startDestroyer keys).keysForWrite.map Prod.fst =
      (startDestroyer keys).dcenters := by
    simpa [startDestroyer] using a1
  have hs2 : (startDestroyer keys).dcenters.Nodup := by
    simpa [startDestroyer] using a2
  have hs3 : (startDestroyer keys).dcenters.length = keys.length := by
    simpa [startDestroyer] using a3
  have hs4 : (startDestroyer keys).sessions =
      (startDestroyer keys).dcenters := by
    simp [startDestroyer]
  have hs5 : (startDestroyer keys).allKeysDestroyedFired = 0 := by
    simpa [startDestroyer] using a5
  obtain ⟨b1, b2, b3, b4, b5⟩ :=
    destroyRun order (startDestroyer keys) hperm hs2 hs1 hs4 hs5
  have horder : order ≠ [] := by
    intro h0
    subst h0
    have : (startDestroyer keys).dcenters = [] := List.perm_nil.mp hperm.symm
    rw [this] at hs3
    simp at hs3
    exact hkeys (List.length_eq_zero.mp hs3.symm)
  refine ⟨by rw [hs1]; exact hs2, hs1, hs3, hs4, b1, b2, b3, ?_, b5⟩
  rw [b4]
  simp [horder]

/-- Witness for C9 with keys for DCs {2, 3, 3} and an out-of-order
destruction run. -/
theorem c9_key_destroyer_witness :
    ((startDestroyer [(2, 10), (3, 11), (3, 12)]).keysForWrite.map
      Prod.fst).Nodup ∧
    (startDestroyer [(2, 10), (3, 11), (3, 12)]).keysForWrite.map Prod.fst =
      (startDestroyer [(2, 10), (3, 11), (3, 12)]).dcenters ∧
    (startDestroyer [(2, 10), (3, 11), (3, 12)]).dcenters.length =
      ([(2, 10), (3, 11), (3, 12)] : List (Int × Nat)).length ∧
    (startDestroyer [(2, 10), (3, 11), (3, 12)]).sessions =
      (startDestroyer [(2, 10), (3, 11), (3, 12)]).dcenters ∧
    (([2560003, 2570003, 2560002] : List Int).foldl completedKeyDestroy
      (startDestroyer [(2, 10), (3, 11), (3, 12)])).dcenters = [] ∧
    (([2560003, 2570003, 2560002] : List Int).foldl completedKeyDestroy
      (startDestroyer [(2, 10), (3, 11), (3, 12)])).keysForWrite = [] ∧
    (([2560003, 2570003, 2560002] : List Int).foldl completedKeyDestroy
      (startDestroyer [(2, 10), (3, 11), (3, 12)])).sessions = [] ∧
    (([2560003, 2570003, 2560002] : List Int).foldl completedKeyDestroy
      (startDestroyer [(2, 10), (3, 11), (3, 12)])).allKeysDestroyedFired
      = 1 ∧
    ∀ k, k < ([2560003, 2570003, 2560002] : List Int).length →
      ((([2560003, 2570003, 2560002] : List Int).take k).foldl
        completedKeyDestroy
        (startDestroyer [(2, 10), (3, 11), (3, 12)])).allKeysDestroyedFired
        = 0 :=
  c9_key_destroyer [(2, 10), (3, 11), (3, 12)] [2560003, 2570003, 2560002]
    (by decide) (by decide)

/-! ## C10: `dcPersistentKeyChanged` -/

/-- C10: every `dcPersistentKeyChanged(dcId, key)` call fires the
temporary-key-changed event for `dcId` exactly once, before anything else;
and whenever `dcId` is temporary, or the registry already maps `dcId` to
the same key, or `dcId` is absent and the key is null, the persistent key
registry is unchanged and no persistence write happens. -/
theorem c10_persistent_key_changed (isTemporaryDcId : Int → Bool)
    (keysForWrite : List (Int × Nat)) (dcId : Int)
    (persistentKey : Option Nat) :
    (∃ rest,
      (dcPersistentKeyChanged isTemporaryDcId keysForWrite dcId
        persistentKey).2 = Event.tempKeyChanged dcId :: rest ∧
      ∀ d, Event.tempKeyChanged d ∉ rest) ∧
    ((isTemporaryDcId dcId = true ∨
        (∃ k, lookupA keysForWrite dcId = some k ∧ persistentKey = some k) ∨
        (lookupA keysForWrite dcId = none ∧ persistentKey = none)) →
      (dcPersistentKeyChanged isTemporaryDcId keysForWrite dcId
        persistentKey).1 = keysForWrite ∧
      Event.writeMtpData ∉
        (dcPersistentKeyChanged isTemporaryDcId keysForWrite dcId
          persistentKey).2) := by
  by_cases htmp : isTemporaryDcId dcId = true
  · refine ⟨⟨[], ?_, by simp⟩, fun _ => ⟨?_, ?_⟩⟩
    · simp [dcPersistentKeyChanged, htmp]
    · simp [dcPersistentKeyChanged, htmp]
    · simp [dcPersistentKeyChanged, htmp]
  · cases hlook : lookupA keysForWrite dcId with
    | some k =>
      by_cases heq : some k = persistentKey
      · subst heq
        refine ⟨⟨[], ?_, by simp⟩, fun _ => ⟨?_, ?_⟩⟩
        · simp [dcPersistentKeyChanged, htmp, hlook]
        · simp [dcPersistentKeyChanged, htmp, hlook]
        · simp [dcPersistentKeyChanged, htmp, hlook]
      · cases persistentKey with
        | none =>
          refine ⟨⟨[Event.writeMtpData], ?_, by simp⟩, ?_⟩
          · simp [dcPersistentKeyChanged, htmp, hlook, heq]
          · rintro (h | ⟨k2, _, hpk⟩ | ⟨hn, _⟩)
            · exact absurd h htmp
            · cases hpk
            · cases hn
        | some newKey =>
          refine ⟨⟨[Event.writeMtpData], ?_, by simp⟩, ?_⟩
          · simp [dcPersistentKeyChanged, htmp, hlook, heq]
          · rintro (h | ⟨k2, hk2, hpk⟩ | ⟨hn, _⟩)
            · exact absurd h htmp
            · injection hk2 with hk2
              injection hpk with hpk
              exact absurd
                (show (some k : Option Nat) = some newKey by rw [hk2, hpk])
                heq
            · cases hn
    | none =>
      cases persistentKey with
      | none =>
        refine ⟨⟨[], ?_, by simp⟩, fun _ => ⟨?_, ?_⟩⟩
        · simp [dcPersistentKeyChanged, htmp, hlook]
        · simp [dcPersistentKeyChanged, htmp, hlook]
        · simp [dcPersistentKeyChanged, htmp, hlook]
      | some newKey =>
        refine ⟨⟨[Event.writeMtpData], ?_, by simp⟩, ?_⟩
        · simp [dcPersistentKeyChanged, htmp, hlook]
        · rintro (h | ⟨k2, hk2, _⟩ | ⟨_, hpk⟩)
          · exact absurd h htmp
          · cases hk2
          · cases hpk

/-- Witness for C10: a re-store of the key already present for DC 2. -/
theorem c10_persistent_key_changed_witness :
    (∃ rest,
      (dcPersistentKeyChanged (fun _ => false) [(2, 5)] 2 (some 5)).2 =
        Event.tempKeyChanged 2 :: rest ∧
      ∀ d, Event.tempKeyChanged d ∉ rest) ∧
    ((fun (_ : Int) => false) 2 = true ∨
      (∃ k, lookupA [(2, 5)] (2 : Int) = some k ∧ (some 5 : Option Nat) = some k) ∨
      (lookupA [(2, 5)] (2 : Int) = none ∧ (some 5 : Option Nat) = none)) ∧
    (dcPersistentKeyChanged (fun _ => false) [(2, 5)] 2 (some 5)).1 =
      [(2, 5)] ∧
    Event.writeMtpData ∉
      (dcPersistentKeyChanged (fun _ => false) [(2, 5)] 2 (some 5)).2 := by
  have h := c10_persistent_key_changed (fun _ => false) [(2, 5)] 2 (some 5)
  have hyp : ((fun (_ : Int) => false) 2 = true ∨
      (∃ k, lookupA [(2, 5)] (2 : Int) = some k ∧
        (some 5 : Option Nat) = some k) ∨
      (lookupA [(2, 5)] (2 : Int) = none ∧ (some 5 : Option Nat) = none)) :=
    Or.inr (Or.inl ⟨5, by decide, rfl⟩)
  exact ⟨h.1, hyp, (h.2 hyp).1, (h.2 hyp).2⟩

end Mtp
